import Mathlib

/-! wails3-nuxt4: close-to-tray hook, tray menu, ticker and service startup.

A shallow embedding of src/app.go and src/main.go.

The GUI toolkit (windows, tray, event bus, run loop), the Go clock and the
Go logger are outside the repository. Their calls are embedded as explicit
state passing over small records: each call records itself in a trace and
performs the one state change its name stands for. Values that only the
toolkit or the Go runtime can supply (the instance returned by
application.New, the clock, Time.Format, the result of app.Run, the
UI events delivered while app.Run blocks) are parameters.
-/

namespace Wails3Nuxt4

/-! ## app.go -/

/-- A `context.Context` value: an interface value, nil or a context handle. -/
abbrev Context := Option Nat

/-- A `*application.App` value: nil or the identity of an application instance. -/
abbrev AppPtr := Option Nat

/-- A Go `error` value: nil or an error carrying its message. -/
abbrev GoError := Option String

/-- The `application.ServiceOptions` argument handed to `ServiceStartup`. -/
structure ServiceOptions where
  Name : String
  Route : String
  deriving DecidableEq, Repr

/-- The `App` struct of app.go (lines 10-13). -/
structure App where
  ctx : Context
  app : AppPtr
  deriving DecidableEq, Repr

/-- The method `(a *App) ServiceStartup` of app.go (lines 17-20): the receiver after
the call, paired with the returned error. -/
def App.ServiceStartup (a : App) (ctx : Context) (options : ServiceOptions) : App × GoError :=
  let a := { a with ctx := ctx }
  (a, none)

/-! ## The toolkit calls made by main.go -/

/-- The calls main.go makes on the logger, the main window, a window event and
the application from inside its callbacks. -/
inductive Call where
  | logPrintln (msg : String)
  | windowHide
  | windowShow
  | windowFocus
  | eventCancel
  | appQuit
  deriving DecidableEq, Repr

/-- An `*application.WindowEvent`: the only part main.go touches is the cancelled mark. -/
structure WindowEvent where
  cancelled : Bool
  deriving DecidableEq, Repr

/-- The application state the callbacks of main.go act on: the main window
(visible, focused, destroyed), whether termination has been requested, and the
calls made so far, oldest first. -/
structure Desktop where
  visible : Bool
  focused : Bool
  destroyed : Bool
  quitRequested : Bool
  calls : List Call
  deriving DecidableEq, Repr

/-- Go `log.Println(msg)`. -/
def logPrintln (msg : String) (d : Desktop) : Desktop :=
  { d with calls := d.calls ++ [Call.logPrintln msg] }

/-- Toolkit `mainWindow.Hide()`. -/
def windowHide (d : Desktop) : Desktop :=
  { d with visible := false, calls := d.calls ++ [Call.windowHide] }

/-- Toolkit `mainWindow.Show()`. -/
def windowShow (d : Desktop) : Desktop :=
  { d with visible := true, calls := d.calls ++ [Call.windowShow] }

/-- Toolkit `mainWindow.Focus()`. -/
def windowFocus (d : Desktop) : Desktop :=
  { d with focused := true, calls := d.calls ++ [Call.windowFocus] }

/-- Toolkit `event.Cancel()`: marks the event, leaves the window alone. -/
def eventCancel (event : WindowEvent) (d : Desktop) : Desktop × WindowEvent :=
  ({ d with calls := d.calls ++ [Call.eventCancel] }, { event with cancelled := true })

/-- Toolkit `app.Quit()`: requests termination of the application. -/
def appQuit (d : Desktop) : Desktop :=
  { d with quitRequested := true, calls := d.calls ++ [Call.appQuit] }

/-! ## main.go: the callbacks -/

/-- The hook registered for `events.Common.WindowClosing` (main.go lines 65-69). -/
def closingHook (event : WindowEvent) (d : Desktop) : Desktop × WindowEvent :=
  let d := logPrintln "窗口关闭，隐藏到系统托盘" d
  let d := windowHide d
  eventCancel event d

/-- The click handler of the tray menu entry "显示主窗口" (main.go lines 91-95). -/
def trayShowHandler (d : Desktop) : Desktop :=
  let d := logPrintln "托盘菜单：显示主窗口" d
  let d := windowShow d
  windowFocus d

/-- The click handler of the tray menu entry "退出" (main.go lines 97-100). -/
def trayQuitHandler (d : Desktop) : Desktop :=
  let d := logPrintln "托盘菜单：退出应用" d
  appQuit d

/-- The handler given to `systray.OnClick` (main.go lines 105-109). -/
def systrayOnClick (d : Desktop) : Desktop :=
  let d := logPrintln "托盘图标被点击" d
  let d := windowShow d
  windowFocus d

/-- The labels of the tray menu, in the order main.go adds them (lines 91-100);
`none` is the separator. -/
def trayMenuLabels : List (Option String) :=
  [some "显示主窗口", none, some "退出"]

/-- The option `ApplicationShouldTerminateAfterLastWindowClosed` of main.go line 42. -/
def ApplicationShouldTerminateAfterLastWindowClosed : Bool := true

/-- How the toolkit delivers a window-closing notification: it hands a fresh,
uncancelled event to the registered hook; when the hook leaves the event
cancelled the default close action is skipped, otherwise the window is
destroyed (and, it being the only window, the application terminates when
the option of line 42 asks for that). -/
def deliverWindowClosing (d : Desktop) : Desktop :=
  let r := closingHook { cancelled := false } d
  if r.2.cancelled then r.1
  else { r.1 with
          visible := false
          destroyed := true
          quitRequested := r.1.quitRequested || ApplicationShouldTerminateAfterLastWindowClosed }

/-- The user actions that reach the callbacks of main.go. -/
inductive UIEvent where
  | windowClosing
  | trayShowClick
  | trayIconClick
  | trayQuitClick
  deriving DecidableEq, Repr

/-- One user action handled by the callback main.go registered for it. -/
def dispatch (e : UIEvent) (d : Desktop) : Desktop :=
  match e with
  | UIEvent.windowClosing => deliverWindowClosing d
  | UIEvent.trayShowClick => trayShowHandler d
  | UIEvent.trayIconClick => systrayOnClick d
  | UIEvent.trayQuitClick => trayQuitHandler d

/-- A sequence of user actions, handled in order. -/
def runEvents (es : List UIEvent) (d : Desktop) : Desktop :=
  es.foldl (fun d e => dispatch e d) d

/-- A visible, focused window with nothing requested and nothing logged. -/
def freshDesktop : Desktop :=
  { visible := true, focused := true, destroyed := false, quitRequested := false, calls := [] }

/-! ## main.go: the ticker goroutine -/

/-- Go `time.Second`, in nanoseconds. -/
def Second : Nat := 1000000000

/-- Go `time.RFC1123`. -/
def RFC1123 : String := "Mon, 02 Jan 2006 15:04:05 MST"

/-- What the Go runtime supplies to the ticker: `Time.Format`, the time
iteration `k` spends reading the clock, formatting and emitting (`overhead k`),
and the time a `time.Sleep d` made in iteration `k` really lasts
(`sleepTime k d`). Instants and durations are in nanoseconds. -/
structure Clock where
  format : String → Nat → String
  overhead : Nat → Nat
  sleepTime : Nat → Nat → Nat

/-- What the ticker does, as seen from outside. -/
inductive TickAction where
  | now (t : Nat)
  | emit (name : String) (data : List String)
  | sleep (d : Nat)
  deriving DecidableEq, Repr

/-- The state of the ticker goroutine: the current instant, the number of
completed iterations and the actions performed so far, oldest first. -/
structure Ticker where
  clock : Nat
  iter : Nat
  trace : List TickAction
  deriving DecidableEq, Repr

/-- Go `time.Now()`: the current instant. -/
def timeNow (s : Ticker) : Nat × Ticker :=
  (s.clock, { s with trace := s.trace ++ [TickAction.now s.clock] })

/-- Toolkit `app.Event.Emit(name, data...)`; by its end the overhead of the
iteration has elapsed. -/
def eventEmit (c : Clock) (name : String) (data : List String) (s : Ticker) : Ticker :=
  { s with clock := s.clock + c.overhead s.iter
           trace := s.trace ++ [TickAction.emit name data] }

/-- Go `time.Sleep(d)`. -/
def timeSleep (c : Clock) (d : Nat) (s : Ticker) : Ticker :=
  { s with clock := s.clock + c.sleepTime s.iter d
           trace := s.trace ++ [TickAction.sleep d] }

/-- One pass through the body of the `for` loop of main.go lines 116-120. -/
def tickerBody (c : Clock) (s : Ticker) : Ticker :=
  let r := timeNow s
  let now := c.format RFC1123 r.1
  let s := eventEmit c "time" [now] r.2
  let s := timeSleep c Second s
  { s with iter := s.iter + 1 }

/-- The loop `for { ... }` of main.go lines 116-120 has no condition and no
`break`: the state after `n` completed iterations. -/
def tickerLoop (c : Clock) (n : Nat) (s : Ticker) : Ticker :=
  match n with
  | 0 => s
  | n + 1 => tickerBody c (tickerLoop c n s)

/-- The clock reading iteration `k` (counting from 0) takes for its payload. -/
def reading (c : Clock) (s : Ticker) (k : Nat) : Nat :=
  (timeNow (tickerLoop c k s)).1

/-- The three actions of iteration `k`. -/
def iterationActions (c : Clock) (s : Ticker) (k : Nat) : List TickAction :=
  [TickAction.now (reading c s k),
   TickAction.emit "time" [c.format RFC1123 (reading c s k)],
   TickAction.sleep Second]

/-- The events emitted in a trace, oldest first. -/
def emitted (tr : List TickAction) : List (String × List String) :=
  tr.filterMap (fun a =>
    match a with
    | TickAction.emit name data => some (name, data)
    | _ => none)

/-- The durations of the sleeps requested in a trace, oldest first. -/
def sleeps (tr : List TickAction) : List Nat :=
  tr.filterMap (fun a =>
    match a with
    | TickAction.sleep d => some d
    | _ => none)

/-- The ticker at the moment the goroutine starts: nothing done yet. -/
def tickerStart (t0 : Nat) : Ticker :=
  { clock := t0, iter := 0, trace := [] }

/-- A clock on which reading, formatting and emitting take no time and every
sleep lasts exactly as long as requested. -/
def exactClock (format : String → Nat → String) : Clock :=
  { format := format, overhead := fun _ => 0, sleepTime := fun _ d => d }

/-- A clock on which every iteration spends two seconds before its sleep and
every sleep lasts exactly as long as requested. -/
def slowClock : Clock :=
  { format := fun layout t => layout ++ toString t
    overhead := fun _ => 2 * Second
    sleepTime := fun _ d => d }

/-! ## main.go: main -/

/-- The services main.go registers (lines 34-37), by the object each pointer refers to. -/
inductive ServiceRef where
  | appService
  | greetService
  deriving DecidableEq, Repr

/-- What the toolkit supplies to one execution of `main`: the instance returned
by `application.New`, the main window as created, the arguments it passes to
`ServiceStartup`, the user actions it delivers while `app.Run` blocks, the
clock, the instant the ticker goroutine starts at and the number of iterations
it completes while `app.Run` blocks, and the error `app.Run` returns once the
run loop is over. -/
structure Framework where
  newApp : Nat
  window : Desktop
  startupCtx : Context
  startupOptions : ServiceOptions
  events : List UIEvent
  clock : Clock
  startInstant : Nat
  ticks : Nat
  runResult : GoError

/-- The state of `main`: the object `appService` points to, the local `app`,
the registered services, the application state and the ticker goroutine
(`none` until it is started). -/
structure MainState where
  appService : App
  app : AppPtr
  services : List ServiceRef
  desktop : Desktop
  ticker : Option Ticker
  deriving DecidableEq, Repr

/-- How `main` ends. -/
inductive Outcome where
  | returned
  | fatal (logged : String) (exitCode : Nat)
  deriving DecidableEq, Repr

/-- Go `log.Fatal(err)`: print the error, then `os.Exit(1)`. -/
def logFatal (err : String) : Outcome :=
  Outcome.fatal err 1

/-- Lines 30-121 of main.go: `main` up to the call of `app.Run`. -/
def mainBeforeRun (fw : Framework) : MainState :=
  -- line 30: appService := &App{}
  let appService : App := { ctx := none, app := none }
  -- lines 31-44: app := application.New(... Services: appService, &GreetService{} ...)
  let st : MainState :=
    { appService := appService
      app := some fw.newApp
      services := [ServiceRef.appService, ServiceRef.greetService]
      desktop := fw.window
      ticker := none }
  -- lines 51-69: the main window and its closing hook
  -- line 71: appService.app = app
  let st := { st with appService := { st.appService with app := st.app } }
  -- lines 74-109: the tray, its menu and its click handler
  -- line 111
  let st := { st with desktop := logPrintln "系统托盘创建成功" st.desktop }
  -- lines 115-121: go func() { for { ... } }()
  { st with ticker := some (tickerStart fw.startInstant) }

/-- The call `app.Run()` of line 124: the toolkit starts the registered
services, then handles user actions until the run loop is over, and returns
its error; meanwhile the ticker goroutine goes through its loop. A service
whose startup fails makes the run fail with that error. -/
def appRun (fw : Framework) (st : MainState) : MainState × GoError :=
  let r := App.ServiceStartup st.appService fw.startupCtx fw.startupOptions
  let st := { st with appService := r.1 }
  match r.2 with
  | some e => (st, some e)
  | none =>
    ({ st with
        desktop := runEvents fw.events st.desktop
        ticker := st.ticker.map (tickerLoop fw.clock fw.ticks) },
     fw.runResult)

/-- The function `main` of main.go: its final state and how it ends (lines 123-129). -/
def main (fw : Framework) : MainState × Outcome :=
  let st := mainBeforeRun fw
  let r := appRun fw st
  let err := r.2
  match err with
  | some e => (r.1, logFatal e)
  | none => (r.1, Outcome.returned)

/-- An execution of main in which the toolkit delivers no user action, app.Run
returns nil, and the ticker goroutine, started at instant 5 on the slow clock,
completes three iterations. -/
def slowRun : Framework :=
  { newApp := 1
    window := freshDesktop
    startupCtx := none
    startupOptions := { Name := "", Route := "" }
    events := []
    clock := slowClock
    startInstant := 5
    ticks := 3
    runResult := none }

/-! ## Theorems: the callbacks -/

theorem dispatch_keeps_quit (e : UIEvent) (d : Desktop) (h : d.quitRequested = true) :
    (dispatch e d).quitRequested = true := by
  cases e <;>
    simp [dispatch, deliverWindowClosing, closingHook, trayShowHandler, systrayOnClick,
      trayQuitHandler, logPrintln, windowHide, windowShow, windowFocus, eventCancel, appQuit, h]

theorem runEvents_keeps_quit (es : List UIEvent) (d : Desktop) (h : d.quitRequested = true) :
    (runEvents es d).quitRequested = true := by
  induction es generalizing d with
  | nil => simpa [runEvents] using h
  | cons e es ih =>
    have := ih (dispatch e d) (dispatch_keeps_quit e d h)
    simpa [runEvents] using this

theorem dispatch_alive (e : UIEvent) (d : Desktop) (he : e ≠ UIEvent.trayQuitClick)
    (hq : d.quitRequested = false) (hd : d.destroyed = false) :
    (dispatch e d).quitRequested = false ∧ (dispatch e d).destroyed = false := by
  cases e <;>
    simp_all [dispatch, deliverWindowClosing, closingHook, trayShowHandler, systrayOnClick,
      logPrintln, windowHide, windowShow, windowFocus, eventCancel]

theorem runEvents_alive (es : List UIEvent) (d : Desktop)
    (hes : ∀ e ∈ es, e ≠ UIEvent.trayQuitClick)
    (hq : d.quitRequested = false) (hd : d.destroyed = false) :
    (runEvents es d).quitRequested = false ∧ (runEvents es d).destroyed = false := by
  induction es generalizing d with
  | nil => simpa [runEvents] using And.intro hq hd
  | cons e es ih =>
    have h1 := dispatch_alive e d (hes e (by simp)) hq hd
    have := ih (dispatch e d) (fun x hx => hes x (by simp [hx])) h1.1 h1.2
    simpa [runEvents] using this

/-- C1: whatever the state of the main window and whatever window-closing event
the hook receives, after the hook body the window is not visible and the event
is marked cancelled; the hook always makes the same three calls (log, hide,
cancel), so there is no path on which one of the two effects is skipped. -/
theorem closingHook_hides_and_cancels (event : WindowEvent) (d : Desktop) :
    (closingHook event d).1.visible = false ∧
    (closingHook event d).2.cancelled = true ∧
    (closingHook event d).1.calls =
      d.calls ++ [Call.logPrintln "窗口关闭，隐藏到系统托盘", Call.windowHide, Call.eventCancel] := by
  simp [closingHook, logPrintln, windowHide, eventCancel]

/-- C2: whatever the state of the main window, the click handler of the tray
menu entry "显示主窗口" leaves it visible and focused, and the click handler of
the tray icon leaves the application in exactly the same state (only the logged
line differs). -/
theorem trayShow_shows_and_focuses (d : Desktop) :
    trayMenuLabels.head? = some (some "显示主窗口") ∧
    (trayShowHandler d).visible = true ∧
    (trayShowHandler d).focused = true ∧
    (systrayOnClick d).visible = true ∧
    (systrayOnClick d).focused = true ∧
    { systrayOnClick d with calls := [] } = { trayShowHandler d with calls := [] } ∧
    (trayShowHandler d).calls =
      d.calls ++ [Call.logPrintln "托盘菜单：显示主窗口", Call.windowShow, Call.windowFocus] ∧
    (systrayOnClick d).calls =
      d.calls ++ [Call.logPrintln "托盘图标被点击", Call.windowShow, Call.windowFocus] := by
  simp [trayMenuLabels, trayShowHandler, systrayOnClick, logPrintln, windowShow, windowFocus]

/-- C3: whatever the application state, the click handler of the tray menu entry
"退出" requests termination; the calls it makes are the log line and app.Quit
and nothing else (no hide, no cancel), it leaves the window as it is, a click
on the entry is handled by this handler and not by the closing hook, and no
later user action withdraws the request. -/
theorem trayQuit_requests_quit (d : Desktop) (es : List UIEvent) :
    trayMenuLabels.getLast? = some (some "退出") ∧
    (trayQuitHandler d).quitRequested = true ∧
    (trayQuitHandler d).calls = d.calls ++ [Call.logPrintln "托盘菜单：退出应用", Call.appQuit] ∧
    (trayQuitHandler d).visible = d.visible ∧
    (trayQuitHandler d).focused = d.focused ∧
    (trayQuitHandler d).destroyed = d.destroyed ∧
    dispatch UIEvent.trayQuitClick d = trayQuitHandler d ∧
    (runEvents es (trayQuitHandler d)).quitRequested = true := by
  refine ⟨by simp [trayMenuLabels], ?_, ?_, ?_, ?_, ?_, rfl, ?_⟩
  · simp [trayQuitHandler, logPrintln, appQuit]
  · simp [trayQuitHandler, logPrintln, appQuit]
  · simp [trayQuitHandler, logPrintln, appQuit]
  · simp [trayQuitHandler, logPrintln, appQuit]
  · simp [trayQuitHandler, logPrintln, appQuit]
  · exact runEvents_keeps_quit es _ (by simp [trayQuitHandler, logPrintln, appQuit])

/-- C7: for every App value, context and options, ServiceStartup returns a nil
error, leaves the receiver with the given context in its ctx field and with its
app field unchanged, and the options make no difference to either. -/
theorem ServiceStartup_stores_ctx (a : App) (ctx : Context) (options other : ServiceOptions) :
    (App.ServiceStartup a ctx options).2 = none ∧
    (App.ServiceStartup a ctx options).1.ctx = ctx ∧
    (App.ServiceStartup a ctx options).1.app = a.app ∧
    App.ServiceStartup a ctx options = App.ServiceStartup a ctx other := by
  simp [App.ServiceStartup]

/-- C9: from a start state with an existing window (visible or not) and no quit
requested: a closing event leaves the window hidden, the close cancelled, no
quit requested and the window not destroyed; a tray show click then leaves it
visible and focused, still with no quit requested; a tray quit click then
leaves quit requested. And after any sequence of user actions other than the
tray quit click (closing events, tray show clicks, tray icon clicks) quit has
not been requested and the window has not been destroyed. -/
theorem close_show_quit_scenario (d : Desktop) (es : List UIEvent)
    (hq : d.quitRequested = false) (hd : d.destroyed = false)
    (hes : ∀ e ∈ es, e ≠ UIEvent.trayQuitClick) :
    (runEvents [UIEvent.windowClosing] d).visible = false ∧
    (closingHook { cancelled := false } d).2.cancelled = true ∧
    runEvents [UIEvent.windowClosing] d = (closingHook { cancelled := false } d).1 ∧
    (runEvents [UIEvent.windowClosing] d).quitRequested = false ∧
    (runEvents [UIEvent.windowClosing] d).destroyed = false ∧
    (runEvents [UIEvent.windowClosing, UIEvent.trayShowClick] d).visible = true ∧
    (runEvents [UIEvent.windowClosing, UIEvent.trayShowClick] d).focused = true ∧
    (runEvents [UIEvent.windowClosing, UIEvent.trayShowClick] d).quitRequested = false ∧
    (runEvents [UIEvent.windowClosing, UIEvent.trayShowClick] d).destroyed = false ∧
    (runEvents [UIEvent.windowClosing, UIEvent.trayShowClick,
      UIEvent.trayQuitClick] d).quitRequested = true ∧
    (runEvents es d).quitRequested = false ∧
    (runEvents es d).destroyed = false := by
  have hinv := runEvents_alive es d hes hq hd
  refine ⟨?_, ?_, ?_, ?_, ?_, ?_, ?_, ?_, ?_, ?_, hinv.1, hinv.2⟩ <;>
    simp [runEvents, dispatch, deliverWindowClosing, closingHook, trayShowHandler,
      trayQuitHandler, logPrintln, windowHide, windowShow, windowFocus, eventCancel, appQuit,
      hq, hd]

theorem close_show_quit_scenario_witness :
    (runEvents [UIEvent.windowClosing, UIEvent.trayShowClick, UIEvent.windowClosing,
        UIEvent.trayIconClick] freshDesktop).quitRequested = false ∧
    (runEvents [UIEvent.windowClosing, UIEvent.trayShowClick, UIEvent.windowClosing,
        UIEvent.trayIconClick] freshDesktop).destroyed = false :=
  let h := close_show_quit_scenario freshDesktop
    [UIEvent.windowClosing, UIEvent.trayShowClick, UIEvent.windowClosing, UIEvent.trayIconClick]
    rfl rfl (by decide)
  ⟨h.2.2.2.2.2.2.2.2.2.2.1, h.2.2.2.2.2.2.2.2.2.2.2⟩

/-! ## Theorems: the ticker -/

theorem tickerBody_trace (c : Clock) (s : Ticker) :
    (tickerBody c s).trace =
      s.trace ++ [TickAction.now s.clock,
        TickAction.emit "time" [c.format RFC1123 s.clock], TickAction.sleep Second] := by
  simp [tickerBody, timeNow, eventEmit, timeSleep]

theorem tickerBody_clock (c : Clock) (s : Ticker) :
    (tickerBody c s).clock = s.clock + c.overhead s.iter + c.sleepTime s.iter Second := by
  simp [tickerBody, timeNow, eventEmit, timeSleep]

theorem tickerBody_iter (c : Clock) (s : Ticker) : (tickerBody c s).iter = s.iter + 1 := by
  simp [tickerBody, timeNow, eventEmit, timeSleep]

theorem tickerLoop_iter (c : Clock) (n : Nat) (s : Ticker) :
    (tickerLoop c n s).iter = s.iter + n := by
  induction n with
  | zero => simp [tickerLoop]
  | succ n ih => simp [tickerLoop, tickerBody_iter, ih, Nat.add_assoc]

theorem reading_eq (c : Clock) (s : Ticker) (k : Nat) :
    reading c s k = (tickerLoop c k s).clock := rfl

theorem tickerLoop_succ_trace (c : Clock) (n : Nat) (s : Ticker) :
    (tickerLoop c (n + 1) s).trace = (tickerLoop c n s).trace ++ iterationActions c s n := by
  simp [tickerLoop, tickerBody_trace, iterationActions, reading_eq]

theorem tickerLoop_trace (c : Clock) (n : Nat) (s : Ticker) :
    (tickerLoop c n s).trace = s.trace ++ (List.range n).flatMap (iterationActions c s) := by
  induction n with
  | zero => simp [tickerLoop]
  | succ n ih =>
    rw [tickerLoop_succ_trace, ih, List.range_succ, List.flatMap_append, List.flatMap_singleton,
      List.append_assoc]

theorem emitted_append (a b : List TickAction) : emitted (a ++ b) = emitted a ++ emitted b := by
  simp [emitted]

theorem sleeps_append (a b : List TickAction) : sleeps (a ++ b) = sleeps a ++ sleeps b := by
  simp [sleeps]

theorem emitted_iterationActions (c : Clock) (s : Ticker) (k : Nat) :
    emitted (iterationActions c s k) = [("time", [c.format RFC1123 (reading c s k)])] := by
  simp [emitted, iterationActions]

theorem sleeps_iterationActions (c : Clock) (s : Ticker) (k : Nat) :
    sleeps (iterationActions c s k) = [Second] := by
  simp [sleeps, iterationActions]

theorem emitted_tickerLoop (c : Clock) (n : Nat) (s : Ticker) :
    emitted (tickerLoop c n s).trace =
      emitted s.trace ++
        (List.range n).map (fun k => ("time", [c.format RFC1123 (reading c s k)])) := by
  induction n with
  | zero => simp [tickerLoop]
  | succ n ih =>
    rw [tickerLoop_succ_trace, emitted_append, ih, emitted_iterationActions, List.range_succ,
      List.map_append, List.append_assoc]
    rfl

theorem sleeps_tickerLoop (c : Clock) (n : Nat) (s : Ticker) :
    sleeps (tickerLoop c n s).trace = sleeps s.trace ++ List.replicate n Second := by
  induction n with
  | zero => simp [tickerLoop]
  | succ n ih =>
    rw [tickerLoop_succ_trace, sleeps_append, ih, sleeps_iterationActions, List.append_assoc,
      List.replicate_succ' n Second]

theorem reading_succ (c : Clock) (s : Ticker) (k : Nat) :
    reading c s (k + 1) =
      reading c s k + c.overhead (s.iter + k) + c.sleepTime (s.iter + k) Second := by
  simp [reading_eq, tickerLoop, tickerBody_clock, tickerLoop_iter]

theorem reading_drift (c : Clock) (s : Ticker)
    (hs : ∀ k, Second ≤ c.sleepTime k Second) (k n : Nat) :
    reading c s k + (n * Second + ∑ i in Finset.range n, c.overhead (s.iter + (k + i))) ≤
      reading c s (k + n) := by
  induction n with
  | zero => simp
  | succ n ih =>
    have h1 := reading_succ c s (k + n)
    have h2 := hs (s.iter + (k + n))
    rw [Finset.sum_range_succ, ← Nat.add_assoc k n 1, h1]
    have h3 : (n + 1) * Second = n * Second + Second := Nat.succ_mul n Second
    omega

/-- C4: every event the loop publishes is published under the name "time" and
carries exactly one value, the RFC1123 formatting of the clock reading taken in
the same iteration: the actions of n iterations are, iteration by iteration, the
clock reading, the emit of that reading formatted, and the sleep; so the events
published by n iterations are exactly those n events and no other. -/
theorem ticker_payload (c : Clock) (s : Ticker) (n : Nat) :
    (tickerLoop c n s).trace =
      s.trace ++ (List.range n).flatMap (fun k =>
        [TickAction.now (reading c s k),
         TickAction.emit "time" [c.format "Mon, 02 Jan 2006 15:04:05 MST" (reading c s k)],
         TickAction.sleep Second]) ∧
    emitted (tickerLoop c n s).trace =
      emitted s.trace ++ (List.range n).map (fun k =>
        ("time", [c.format "Mon, 02 Jan 2006 15:04:05 MST" (reading c s k)])) ∧
    reading c s n = (tickerLoop c n s).clock :=
  ⟨tickerLoop_trace c n s, emitted_tickerLoop c n s, rfl⟩

theorem tickerLoop_clock (c : Clock) (t0 n : Nat) :
    (tickerLoop c n (tickerStart t0)).clock =
      t0 + ∑ k in Finset.range n, (c.overhead k + c.sleepTime k Second) := by
  induction n with
  | zero => simp [tickerLoop, tickerStart]
  | succ n ih =>
    have h := reading_succ c (tickerStart t0) n
    have hi : (tickerStart t0).iter = 0 := rfl
    simp only [reading_eq, hi, Nat.zero_add] at h
    rw [h, ih, Finset.sum_range_succ]
    omega

/-- C10: on a clock where iteration k spends overhead k on reading, formatting
and emitting and every one-second sleep lasts at least one second, the reading
of iteration k+1 is the reading of iteration k plus that overhead plus the real
length of the sleep, hence at least one second plus the overhead later; the
n-th reading is at least n seconds after the first; consecutive readings are at
least one second apart; the overheads of the iterations add up in the readings
(they are never recovered), and the sleep requested is one second in every
iteration, whatever the overheads were. -/
theorem ticker_drift (c : Clock) (t0 : Nat)
    (hs : ∀ k, Second ≤ c.sleepTime k Second) (k n : Nat) :
    reading c (tickerStart t0) (k + 1) =
      reading c (tickerStart t0) k + c.overhead k + c.sleepTime k Second ∧
    reading c (tickerStart t0) k + (Second + c.overhead k) ≤
      reading c (tickerStart t0) (k + 1) ∧
    reading c (tickerStart t0) 0 + n * Second ≤ reading c (tickerStart t0) n ∧
    reading c (tickerStart t0) k + Second ≤ reading c (tickerStart t0) (k + 1) ∧
    reading c (tickerStart t0) k + (n * Second + ∑ i in Finset.range n, c.overhead (k + i)) ≤
      reading c (tickerStart t0) (k + n) ∧
    sleeps (tickerLoop c n (tickerStart t0)).trace = List.replicate n Second := by
  have h1 : reading c (tickerStart t0) (k + 1) =
      reading c (tickerStart t0) k + c.overhead k + c.sleepTime k Second := by
    simpa [tickerStart] using reading_succ c (tickerStart t0) k
  have h2 := hs k
  have h3 := reading_drift c (tickerStart t0) hs 0 n
  have h4 := reading_drift c (tickerStart t0) hs k n
  have hi : (tickerStart t0).iter = 0 := rfl
  simp only [hi, Nat.zero_add] at h3 h4
  refine ⟨h1, by omega, ?_, by omega, h4, ?_⟩
  · have : reading c (tickerStart t0) 0 + n * Second ≤
        reading c (tickerStart t0) 0 + (n * Second + ∑ i in Finset.range n, c.overhead i) := by
      omega
    exact le_trans this h3
  · rw [sleeps_tickerLoop]
    simp [tickerStart, sleeps]

theorem ticker_drift_witness :
    reading slowClock (tickerStart 5) 0 + 3 * Second ≤ reading slowClock (tickerStart 5) 3 ∧
    reading slowClock (tickerStart 5) 3 = 5 + 9 * Second :=
  ⟨(ticker_drift slowClock 5 (fun _ => Nat.le_refl _) 0 3).2.2.1, by decide⟩

/-! ## Theorems: main -/

theorem appRun_error (fw : Framework) (st : MainState) : (appRun fw st).2 = fw.runResult := by
  simp [appRun, App.ServiceStartup]

theorem main_outcome (fw : Framework) :
    (main fw).2 =
      (match fw.runResult with
       | some e => Outcome.fatal e 1
       | none => Outcome.returned) := by
  unfold main
  simp only [appRun_error]
  cases h : fw.runResult <;> simp [logFatal]

theorem main_state (fw : Framework) : (main fw).1 = (appRun fw (mainBeforeRun fw)).1 := by
  unfold main
  cases h : (appRun fw (mainBeforeRun fw)).2 <;> simp [h]

/-- C6: main ends fatally (the error logged, exit status 1) exactly when app.Run
returns a non-nil error, and returns normally exactly when app.Run returns nil;
how main ends depends on nothing else the toolkit does: not on the instance it
created, the window state, the startup arguments, the user actions handled
by the callbacks (whose hide, show, focus, cancel and quit calls return nothing
that main looks at), or the emits of the ticker. -/
theorem main_fatal_iff_run_error (fw : Framework) (newApp : Nat) (window : Desktop)
    (ctx : Context) (options : ServiceOptions) (events : List UIEvent)
    (clock : Clock) (startInstant ticks : Nat) :
    (main fw).2 =
      (match fw.runResult with
       | some e => Outcome.fatal e 1
       | none => Outcome.returned) ∧
    ((∃ e code, (main fw).2 = Outcome.fatal e code ∧ code ≠ 0) ↔ fw.runResult ≠ none) ∧
    ((main fw).2 = Outcome.returned ↔ fw.runResult = none) ∧
    (main { newApp := newApp, window := window, startupCtx := ctx, startupOptions := options,
            events := events, clock := clock, startInstant := startInstant, ticks := ticks,
            runResult := fw.runResult }).2 = (main fw).2 := by
  refine ⟨main_outcome fw, ?_, ?_, ?_⟩
  · rw [main_outcome]
    cases h : fw.runResult with
    | none => simp
    | some e => simpa using ⟨e, 1, ⟨rfl, rfl⟩, Nat.one_ne_zero⟩
  · rw [main_outcome]
    cases h : fw.runResult <;> simp
  · rw [main_outcome, main_outcome]

/-- C8: in every execution of main, at the call of app.Run the object that
appService points to is among the registered services and its app field holds
the instance application.New returned; a ServiceStartup call on it, with any
context and options, leaves that field as it is, and so does the run as a
whole. -/
theorem appService_holds_app (fw : Framework) (ctx : Context) (options : ServiceOptions) :
    (mainBeforeRun fw).app = some fw.newApp ∧
    ServiceRef.appService ∈ (mainBeforeRun fw).services ∧
    (mainBeforeRun fw).appService.app = some fw.newApp ∧
    (App.ServiceStartup (mainBeforeRun fw).appService ctx options).1.app = some fw.newApp ∧
    (appRun fw (mainBeforeRun fw)).1.appService.app = some fw.newApp ∧
    (main fw).1.appService.app = some fw.newApp ∧
    (main fw).1.appService.ctx = fw.startupCtx := by
  refine ⟨rfl, by simp [mainBeforeRun], rfl, rfl, ?_, ?_, ?_⟩
  · simp [appRun, App.ServiceStartup, mainBeforeRun]
  · rw [main_state]
    simp [appRun, App.ServiceStartup, mainBeforeRun]
  · rw [main_state]
    simp [appRun, App.ServiceStartup, mainBeforeRun]

/-! ## Theorems: the ticker as started by main -/

theorem main_ticker (fw : Framework) :
    (main fw).1.ticker = some (tickerLoop fw.clock fw.ticks (tickerStart fw.startInstant)) := by
  rw [main_state]
  simp [appRun, App.ServiceStartup, mainBeforeRun]

/-- C5, as amended: main starts the ticker goroutine before app.Run, and the
state of the goroutine at the end of the run is that of the loop after the
iterations it completed. The loop never stops by itself (after n iterations it
goes through the body once more, adding the three actions of iteration n). After
n completed iterations it has emitted exactly n events and requested exactly n
sleeps, each of one second; its first two actions are the clock reading and the
emit, with no sleep before them. The time elapsed over the n iterations is the
sum, over the iterations, of the overhead and of the real length of the sleep;
on a clock without overhead and with exact sleeps that is n seconds. -/
theorem ticker_rate_per_iteration (fw : Framework) (format : String → Nat → String) :
    (mainBeforeRun fw).ticker = some (tickerStart fw.startInstant) ∧
    (main fw).1.ticker = some (tickerLoop fw.clock fw.ticks (tickerStart fw.startInstant)) ∧
    (tickerLoop fw.clock (fw.ticks + 1) (tickerStart fw.startInstant)).trace =
      (tickerLoop fw.clock fw.ticks (tickerStart fw.startInstant)).trace ++
        iterationActions fw.clock (tickerStart fw.startInstant) fw.ticks ∧
    (tickerLoop fw.clock fw.ticks (tickerStart fw.startInstant)).iter = fw.ticks ∧
    (emitted (tickerLoop fw.clock fw.ticks (tickerStart fw.startInstant)).trace).length =
      fw.ticks ∧
    sleeps (tickerLoop fw.clock fw.ticks (tickerStart fw.startInstant)).trace =
      List.replicate fw.ticks Second ∧
    (tickerLoop fw.clock (fw.ticks + 1) (tickerStart fw.startInstant)).trace.take 2 =
      [TickAction.now fw.startInstant,
       TickAction.emit "time" [fw.clock.format RFC1123 fw.startInstant]] ∧
    (tickerLoop fw.clock fw.ticks (tickerStart fw.startInstant)).clock =
      fw.startInstant +
        ∑ k in Finset.range fw.ticks, (fw.clock.overhead k + fw.clock.sleepTime k Second) ∧
    (tickerLoop (exactClock format) fw.ticks (tickerStart fw.startInstant)).clock =
      fw.startInstant + fw.ticks * Second := by
  refine ⟨rfl, main_ticker fw, tickerLoop_succ_trace _ _ _, ?_, ?_, ?_, ?_,
    tickerLoop_clock _ _ _, ?_⟩
  · simp [tickerLoop_iter, tickerStart]
  · rw [emitted_tickerLoop]
    simp [tickerStart, emitted]
  · rw [sleeps_tickerLoop]
    simp [tickerStart, sleeps]
  · rw [tickerLoop_trace, List.range_succ_eq_map]
    simp [tickerStart, iterationActions, reading_eq, tickerLoop]
  · rw [tickerLoop_clock]
    simp [exactClock, Nat.mul_comm]

/-- C5, as stated, fails: in the execution slowRun of main the ticker has
completed three iterations and emitted three events, while nine seconds have
elapsed on its clock since it started; the number of events is not the number
of elapsed seconds. -/
theorem ticker_rate_counterexample :
    (main slowRun).1.ticker = some (tickerLoop slowClock 3 (tickerStart 5)) ∧
    (tickerLoop slowClock 3 (tickerStart 5)).iter = 3 ∧
    (emitted (tickerLoop slowClock 3 (tickerStart 5)).trace).length = 3 ∧
    (tickerLoop slowClock 3 (tickerStart 5)).clock - (tickerStart 5).clock = 9 * Second ∧
    ¬ ((emitted (tickerLoop slowClock 3 (tickerStart 5)).trace).length * Second =
        (tickerLoop slowClock 3 (tickerStart 5)).clock - (tickerStart 5).clock) :=
  ⟨main_ticker slowRun, by decide, by decide, by decide, by decide⟩

end Wails3Nuxt4
